import Mathlib

/-!
# Verification of the wiki-bot retrieval-and-synthesis pipeline

A shallow embedding of the core of the `wiki-bot` repository
(`notion.service.ts` and `claude.service.ts`) together with proofs about it.

The embedding models:
* the Notion block tree and per-variant text rendering (`renderBlockText`,
  the `switch` in `extractBlockContent`);
* the recursive flattener `extractBlockContent`, including its depth guard
  (`if (depth > 3) return ''`) and the inner recursion ceiling
  (`b.has_children && depth < 2`);
* the page search/filter/flatten loop `searchNotion`, including the
  hyphen-stripping scope normalization `normalizeId`, the 5-candidate cap,
  the per-candidate try/catch, the empty-content drop and the 3000-character
  truncation;
* the synthesizer `generateAnswer`, including the empty-document sentinel,
  the context assembly with the `\n\n---\n\n` divider and the
  text-segment extraction fallback.

Fallible network calls (`notion.blocks.children.list`) are modelled by a
store function returning `Except`; a thrown exception is an `Except.error`.
-/

/-- Model of JavaScript `String.prototype.trim`: drop leading and trailing
whitespace characters. (Implemented structurally over the character list so
that it evaluates inside the kernel.) -/
def jsTrim (s : String) : String :=
  String.mk (((s.data.dropWhile Char.isWhitespace).reverse.dropWhile Char.isWhitespace).reverse)

/-- Model of JavaScript `str.slice(0, n)`: the first `n` characters. -/
def jsSlice (s : String) (n : Nat) : String :=
  String.mk (s.data.take n)

/-- One element of a Notion rich-text array; only `plain_text` is used. -/
structure RichTextItem where
  plain_text : String
deriving DecidableEq

/-- `extractRichText` from `notion.service.ts`: concatenate the
`plain_text` of every rich-text item. -/
def extractRichText (richText : List RichTextItem) : String :=
  String.join (richText.map RichTextItem.plain_text)

/-- The tagged block variants distinguished by the `switch` in
`extractBlockContent`; `other` stands for every unrecognized type
(the switch's implicit default, which leaves `text = ''`). -/
inductive BlockKind where
  | paragraph (rich_text : List RichTextItem)
  | heading_1 (rich_text : List RichTextItem)
  | heading_2 (rich_text : List RichTextItem)
  | heading_3 (rich_text : List RichTextItem)
  | bulleted_list_item (rich_text : List RichTextItem)
  | numbered_list_item (rich_text : List RichTextItem)
  | to_do (checked : Bool) (rich_text : List RichTextItem)
  | toggle (rich_text : List RichTextItem)
  | quote (rich_text : List RichTextItem)
  | callout (rich_text : List RichTextItem)
  | code (language : String) (rich_text : List RichTextItem)
  | table_row (cells : List (List RichTextItem))
  | divider
  | other
deriving DecidableEq

/-- A block object: identifier, `has_children` flag, and its typed payload. -/
structure Block where
  id : String
  has_children : Bool
  kind : BlockKind
deriving DecidableEq

/-- The `switch (b.type)` of `extractBlockContent`, computing one block's
own line of text. -/
def renderBlockText (b : Block) : String :=
  match b.kind with
  | .paragraph rt => extractRichText rt
  | .heading_1 rt => "# " ++ extractRichText rt
  | .heading_2 rt => "## " ++ extractRichText rt
  | .heading_3 rt => "### " ++ extractRichText rt
  | .bulleted_list_item rt => "• " ++ extractRichText rt
  | .numbered_list_item rt => extractRichText rt
  | .to_do checked rt => (if checked then "✓" else "○") ++ " " ++ extractRichText rt
  | .toggle rt => extractRichText rt
  | .quote rt => "> " ++ extractRichText rt
  | .callout rt => "📌 " ++ extractRichText rt
  | .code language rt => "```" ++ language ++ "\n" ++ extractRichText rt ++ "\n```"
  | .table_row cells => String.intercalate " | " (cells.map extractRichText)
  | .divider => "---"
  | .other => ""

/-- The block-children capability: `notion.blocks.children.list` with
`page_size: 50`, returning the first page of children of a block id, or a
thrown network error. -/
def FetchStore : Type := String → Except String (List Block)

mutual

/-- `extractBlockContent` from `notion.service.ts`: flatten the children of
`blockId` to text.  Returns `''` when `depth > 3`; otherwise fetches the
children and joins the non-empty per-block lines with `'\n'`
(`lines.filter(Boolean).join('\n')`). -/
def extractBlockContent (store : FetchStore) (blockId : String) (depth : Nat) : Except String String :=
  if depth > 3 then Except.ok ""
  else
    match store blockId with
    | Except.error e => Except.error e
    | Except.ok results =>
      match blockLines store results depth with
      | Except.error e => Except.error e
      | Except.ok lines => Except.ok (String.intercalate "\n" (lines.filter (fun l => l != "")))
termination_by (4 - depth, 1, 0)

/-- The `for (const block of response.results)` body of
`extractBlockContent`: push the block's own text when `text.trim()` is
truthy, then, when `b.has_children && depth < 2`, recursively flatten the
child subtree and push its output when non-empty. -/
def blockLines (store : FetchStore) (blocks : List Block) (depth : Nat) : Except String (List String) :=
  match blocks with
  | [] => Except.ok []
  | b :: rest =>
    let text := renderBlockText b
    let own : List String := if jsTrim text = "" then [] else [text]
    let childPart : Except String (List String) :=
      if b.has_children ∧ depth < 2 then
        match extractBlockContent store b.id (depth + 1) with
        | Except.error e => Except.error e
        | Except.ok c => Except.ok (if c = "" then [] else [c])
      else Except.ok []
    match childPart with
    | Except.error e => Except.error e
    | Except.ok child =>
      match blockLines store rest depth with
      | Except.error e => Except.error e
      | Except.ok restLines => Except.ok (own ++ child ++ restLines)
termination_by (4 - depth, 0, blocks.length)

end

mutual

/-- The number of `notion.blocks.children.list` calls performed by
`extractBlockContent store blockId depth`: one per container visited, with
an erroring fetch still counted and aborting the rest of its batch. -/
def fetchCount (store : FetchStore) (blockId : String) (depth : Nat) : Nat :=
  if depth > 3 then 0
  else
    match store blockId with
    | Except.error _ => 1
    | Except.ok results => 1 + fetchCountBlocks store results depth
termination_by (4 - depth, 1, 0)

/-- Fetches performed while processing one list of sibling blocks at a given
depth: recursion happens only under `b.has_children && depth < 2`, and an
error thrown inside a child subtree stops the remaining siblings. -/
def fetchCountBlocks (store : FetchStore) (blocks : List Block) (depth : Nat) : Nat :=
  match blocks with
  | [] => 0
  | b :: rest =>
    if b.has_children ∧ depth < 2 then
      fetchCount store b.id (depth + 1) +
        (match extractBlockContent store b.id (depth + 1) with
         | Except.error _ => 0
         | Except.ok _ => fetchCountBlocks store rest depth)
    else fetchCountBlocks store rest depth
termination_by (4 - depth, 0, blocks.length)

end

/-- `normalizeId` from `notion.service.ts`: remove every hyphen from the id
(the global `replace` of the hyphen regex with the empty string). -/
def normalizeId (id : String) : String :=
  String.mk (id.data.filter (fun c => c != '-'))

/-- The parent of a page object (`result.parent`): a database, a page, or
anything else (workspace, block, ...). -/
inductive Parent where
  | database (database_id : String)
  | page (page_id : String)
  | workspace
deriving DecidableEq

/-- One value of `page.properties`: either a title-typed property carrying a
rich-text array, or a property of any other type. -/
inductive PageProperty where
  | title (title : List RichTextItem)
  | other
deriving DecidableEq

/-- `prop.type === 'title'`. -/
def isTitleProp : PageProperty → Bool
  | .title _ => true
  | .other => false

/-- A full page object as used by `searchNotion`: id, url, property values
(`Object.values(page.properties)` in declaration order) and parent. -/
structure PageResult where
  id : String
  url : String
  properties : List PageProperty
  parent : Parent
deriving DecidableEq

/-- One element of `response.results` of `notion.search`: a full page
object, or a partial object for which `isFullPage` is false. -/
inductive SearchResult where
  | fullPage (page : PageResult)
  | incomplete
deriving DecidableEq

/-- The output unit of `searchNotion`. -/
structure NotionPage where
  id : String
  title : String
  url : String
  content : String
deriving DecidableEq

/-- `extractPageTitle` from `notion.service.ts`: the first property of type
`'title'`, rendered through `extractRichText`; `'Sin título'` when no
title-typed property exists. -/
def extractPageTitle (page : PageResult) : String :=
  match page.properties.find? isTitleProp with
  | some (PageProperty.title rts) => extractRichText rts
  | _ => "Sin título"

/-- The database filter of `searchNotion`: when `NOTION_DATABASE_ID` is
configured, keep only full pages whose parent is the configured database,
comparing ids through `normalizeId`; otherwise pass everything through. -/
def scopeFiltered (databaseId : Option String) (results : List SearchResult) : List SearchResult :=
  match databaseId with
  | some dbId =>
    results.filter (fun result =>
      match result with
      | SearchResult.fullPage page =>
        match page.parent with
        | Parent.database pid => normalizeId pid == normalizeId dbId
        | _ => false
      | SearchResult.incomplete => false)
  | none => results

/-- The body of the `try` block of `searchNotion`'s per-candidate loop:
extract the title, flatten the content from depth 0, and produce the page
record when `content.trim()` is truthy (`none` when the page is dropped for
empty content, `Except.error` when a fetch inside the flatten threw). -/
def tryProcess (store : FetchStore) (page : PageResult) : Except String (Option NotionPage) :=
  let title := extractPageTitle page
  match extractBlockContent store page.id 0 with
  | Except.error e => Except.error e
  | Except.ok content =>
    if jsTrim content = "" then Except.ok none
    else Except.ok (some { id := page.id, title := title, url := page.url,
                           content := jsSlice content 3000 })

/-- The `for (const result of filtered.slice(0, 5))` loop of `searchNotion`:
skip non-full pages, catch-and-continue per-candidate errors, and push the
successfully rendered pages in order. -/
def searchLoop (store : FetchStore) (results : List SearchResult) : List NotionPage :=
  match results with
  | [] => []
  | SearchResult.incomplete :: rest => searchLoop store rest
  | SearchResult.fullPage page :: rest =>
    match tryProcess store page with
    | Except.error _ => searchLoop store rest
    | Except.ok none => searchLoop store rest
    | Except.ok (some p) => p :: searchLoop store rest

/-- `searchNotion` from `notion.service.ts`, starting from the results of
the `notion.search` call: apply the database scope filter, take the first
five candidates, and process them in order. -/
def searchNotion (databaseId : Option String) (store : FetchStore) (searchResults : List SearchResult) : List NotionPage :=
  let filtered := scopeFiltered databaseId searchResults
  searchLoop store (filtered.take 5)

/-- One content segment of the model response: text or anything else. -/
inductive ContentSegment where
  | text (text : String)
  | other
deriving DecidableEq

/-- `b.type === 'text'`. -/
def ContentSegment.isText : ContentSegment → Bool
  | .text _ => true
  | .other => false

/-- The model response shape used by `generateAnswer`. -/
structure ModelResponse where
  content : List ContentSegment
deriving DecidableEq

/-- The system prompt of `claude.service.ts`. -/
def SYSTEM_PROMPT : String :=
  "Eres un asistente interno de empresa. Tu función es responder preguntas del equipo usando únicamente la información del wiki de Notion que se te proporcionará como contexto.\n\nReglas:\n- Responde SIEMPRE en español\n- Basa tus respuestas EXCLUSIVAMENTE en el contexto de Notion proporcionado\n- Si el contexto no tiene suficiente información, dilo claramente en lugar de inventar\n- Sé conciso y directo, pero completo\n- Usa formato Markdown: negritas, listas, etc. cuando mejore la legibilidad\n- Al final de cada respuesta, incluye las fuentes con este formato exacto:\n  📚 *Fuente(s):* <URL_1|Nombre_Página_1>, <URL_2|Nombre_Página_2>\n  (usa formato de enlace de Slack: <url|texto>)\n- Si hay varias páginas relevantes, menciona cuál sección responde qué parte"

/-- The fixed no-results sentinel of `generateAnswer`. -/
def noInfoMessage : String :=
  "❌ No encontré información relevante en el wiki de Notion para tu pregunta.\n\nIntenta reformularla, usa términos más específicos, o revisa directamente en Notion."

/-- The fixed sentinel returned when the model response has no text block. -/
def fallbackMessage : String :=
  "⚠️ No se pudo generar una respuesta. Intenta de nuevo."

/-- The separator placed between rendered documents by `generateAnswer`:
`.join('\n\n---\n\n')`. -/
def docSeparator : String := "\n\n---\n\n"

/-- The per-document rendering of `generateAnswer`'s context assembly:
`[PÁGINA i+1: "title"]`, the URL, a blank line, then the content. -/
def renderDoc (i : Nat) (page : NotionPage) : String :=
  "[PÁGINA " ++ toString (i + 1) ++ ": \"" ++ page.title ++ "\"]\nURL: " ++
    page.url ++ "\n\n" ++ page.content

/-- `generateAnswer` from `claude.service.ts`.  The language model is
modelled as the capability `complete : system → userMessage → response`;
the second component of the result counts how many times it was invoked.
On the empty document list the fixed sentinel is returned with zero calls;
otherwise the context is assembled, the model is called once, and the first
text-typed content segment (or the fallback sentinel) is returned. -/
def generateAnswer (complete : String → String → ModelResponse) (query : String) (notionPages : List NotionPage) : String × Nat :=
  if notionPages.length = 0 then
    (noInfoMessage, 0)
  else
    let contextText :=
      String.intercalate docSeparator (notionPages.enum.map (fun p => renderDoc p.1 p.2))
    let userMessage :=
      "Contexto del wiki de Notion:\n\n" ++ contextText ++ "\n\n" ++ "---\n\n" ++
        "Pregunta: " ++ query
    let response := complete SYSTEM_PROMPT userMessage
    match response.content.find? ContentSegment.isText with
    | some (ContentSegment.text t) => (t, 1)
    | _ => (fallbackMessage, 1)

/-- The rich-text spans a block's rendering is built from (used to state
properties of `renderBlockText`). -/
def blockRichSpans (b : Block) : List RichTextItem :=
  match b.kind with
  | .paragraph rt => rt
  | .heading_1 rt => rt
  | .heading_2 rt => rt
  | .heading_3 rt => rt
  | .bulleted_list_item rt => rt
  | .numbered_list_item rt => rt
  | .to_do _ rt => rt
  | .toggle rt => rt
  | .quote rt => rt
  | .callout rt => rt
  | .code _ rt => rt
  | .table_row cells => cells.flatten
  | .divider => []
  | .other => []

/-! ## Helper lemmas about the character data of rendered strings -/

theorem data_foldl_append (l : List String) (acc : String) :
    (l.foldl (fun r s => r ++ s) acc).data = acc.data ++ (l.map String.data).flatten := by
  induction l generalizing acc with
  | nil => simp
  | cons s rest ih => simp [List.foldl_cons, ih, String.data_append, List.append_assoc]

theorem join_data (l : List String) : (String.join l).data = (l.map String.data).flatten := by
  rw [String.join]
  simpa using data_foldl_append l ""

theorem mem_extractRichText_data {c : Char} {rt : List RichTextItem}
    (h : c ∈ (extractRichText rt).data) : ∃ s ∈ rt, c ∈ s.plain_text.data := by
  rw [extractRichText, join_data] at h
  obtain ⟨l, hl, hcl⟩ := List.mem_flatten.mp h
  obtain ⟨s, hs, rfl⟩ := List.mem_map.mp hl
  obtain ⟨r, hr, rfl⟩ := List.mem_map.mp hs
  exact ⟨r, hr, hcl⟩

theorem intercalate_go_not_mem {c : Char} (sep : String) (hsep : c ∉ sep.data) :
    ∀ (as : List String) (acc : String), c ∉ acc.data → (∀ a ∈ as, c ∉ a.data) →
      c ∉ (String.intercalate.go acc sep as).data := by
  intro as
  induction as with
  | nil =>
    intro acc hacc _
    rw [String.intercalate.go]
    exact hacc
  | cons a as ih =>
    intro acc hacc hall
    rw [String.intercalate.go]
    refine ih (acc ++ sep ++ a) ?_ (fun x hx => hall x (List.mem_cons_of_mem a hx))
    simp only [String.data_append, List.mem_append]
    rintro ((h | h) | h)
    · exact hacc h
    · exact hsep h
    · exact hall a (List.mem_cons_self a as) h

theorem intercalate_not_mem {c : Char} (sep : String) (l : List String)
    (hsep : c ∉ sep.data) (hl : ∀ a ∈ l, c ∉ a.data) :
    c ∉ (String.intercalate sep l).data := by
  cases l with
  | nil =>
    rw [String.intercalate]
    simp
  | cons a as =>
    rw [String.intercalate]
    exact intercalate_go_not_mem sep hsep as a (hl a (List.mem_cons_self a as))
      (fun x hx => hl x (List.mem_cons_of_mem a hx))

theorem ne_docSeparator_of_no_newline (s : String) (h : ('\n' : Char) ∉ s.data) :
    s ≠ docSeparator := by
  intro hEq
  rw [hEq] at h
  exact h (by decide)

theorem ne_docSeparator_of_head (s : String) (c : Char) (hs : s.data.head? = some c)
    (hc : c ≠ '\n') : s ≠ docSeparator := by
  intro hEq
  rw [hEq] at hs
  have hsep : docSeparator.data.head? = some '\n' := rfl
  rw [hsep] at hs
  exact hc (Option.some.inj hs).symm

theorem head_append (p t : String) (c : Char) (hp : p.data.head? = some c) :
    (p ++ t).data.head? = some c := by
  rw [String.data_append]
  cases hd : p.data with
  | nil => rw [hd] at hp; cases hp
  | cons a as =>
    rw [hd] at hp
    simpa using hp

/-! ## C1, C2, C5, C6, C9 -/

/-- Concrete store for scenario C: the root container holds a paragraph
"Hello" with nested children, and its child subtree holds a bulleted item
"World". -/
def store0 : FetchStore := fun id =>
  if id = "root" then
    Except.ok [{ id := "p1", has_children := true,
                 kind := BlockKind.paragraph [{ plain_text := "Hello" }] }]
  else if id = "p1" then
    Except.ok [{ id := "b1", has_children := false,
                 kind := BlockKind.bulleted_list_item [{ plain_text := "World" }] }]
  else Except.ok []

/-- C1 (counterexample): invoked directly with depth 3 the flattener does
not return empty text — the guard is `depth > 3`, so at depth exactly 3 the
store is still fetched and its blocks are rendered. -/
theorem extractBlockContent_depth_three_renders :
    extractBlockContent store0 "root" 3 ≠ Except.ok "" := by
  have h : extractBlockContent store0 "root" 3 = Except.ok "Hello" := by
    simp [extractBlockContent, blockLines, store0, renderBlockText, extractRichText, jsTrim]
    decide
  rw [h]
  intro hEq
  exact absurd (Except.ok.inj hEq) (by decide)

/-- C1 (amended): for every store and block id, the flattener invoked with
a depth counter of 4 or more (i.e. strictly above the fixed ceiling 3)
returns empty text immediately, regardless of the store-provided children. -/
theorem extractBlockContent_empty_from_depth_four (store : FetchStore) (blockId : String)
    (depth : Nat) (h : 4 ≤ depth) :
    extractBlockContent store blockId depth = Except.ok "" := by
  rw [extractBlockContent, if_pos (by omega : depth > 3)]

/-- C1 (witness): the depth-4 instance of the ceiling theorem on the
scenario-C store. -/
theorem extractBlockContent_empty_from_depth_four_witness :
    4 ≤ 4 ∧ extractBlockContent store0 "root" 4 = Except.ok "" :=
  ⟨by decide, extractBlockContent_empty_from_depth_four store0 "root" 4 (by decide)⟩

/-- C2 (counterexample): the inter-document divider string `"\n\n---\n\n"`
is emitted verbatim by a paragraph block whose rich text equals it, and the
divider block's rendering `"---"` coincides with the trimmed divider
marker. -/
theorem docSeparator_collision :
    renderBlockText { id := "blk", has_children := false,
                      kind := BlockKind.paragraph [{ plain_text := "\n\n---\n\n" }] } =
      docSeparator ∧
    renderBlockText { id := "blk", has_children := false, kind := BlockKind.divider } =
      jsTrim docSeparator := by
  exact ⟨rfl, rfl⟩

/-- C2 (amended): no block kind whose rich-text spans are free of newline
characters renders to the inter-document divider string `"\n\n---\n\n"`;
in particular every fixed block marker (including the divider block's
`"---"`) differs from it. -/
theorem renderBlockText_ne_docSeparator (b : Block)
    (h : ∀ s ∈ blockRichSpans b, ('\n' : Char) ∉ s.plain_text.data) :
    renderBlockText b ≠ docSeparator := by
  obtain ⟨bid, bhc, k⟩ := b
  cases k with
  | paragraph rt =>
    refine ne_docSeparator_of_no_newline _ (fun hmem => ?_)
    obtain ⟨s, hs, hcs⟩ := mem_extractRichText_data hmem
    exact h s hs hcs
  | heading_1 rt => exact ne_docSeparator_of_head _ '#' (head_append "# " _ '#' rfl) (by decide)
  | heading_2 rt => exact ne_docSeparator_of_head _ '#' (head_append "## " _ '#' rfl) (by decide)
  | heading_3 rt => exact ne_docSeparator_of_head _ '#' (head_append "### " _ '#' rfl) (by decide)
  | bulleted_list_item rt =>
    exact ne_docSeparator_of_head _ '•' (head_append "• " _ '•' rfl) (by decide)
  | numbered_list_item rt =>
    refine ne_docSeparator_of_no_newline _ (fun hmem => ?_)
    obtain ⟨s, hs, hcs⟩ := mem_extractRichText_data hmem
    exact h s hs hcs
  | to_do checked rt =>
    cases checked with
    | true =>
      exact ne_docSeparator_of_head _ '✓' (head_append ("✓" ++ " ") _ '✓' rfl) (by decide)
    | false =>
      exact ne_docSeparator_of_head _ '○' (head_append ("○" ++ " ") _ '○' rfl) (by decide)
  | toggle rt =>
    refine ne_docSeparator_of_no_newline _ (fun hmem => ?_)
    obtain ⟨s, hs, hcs⟩ := mem_extractRichText_data hmem
    exact h s hs hcs
  | quote rt => exact ne_docSeparator_of_head _ '>' (head_append "> " _ '>' rfl) (by decide)
  | callout rt => exact ne_docSeparator_of_head _ '📌' (head_append "📌 " _ '📌' rfl) (by decide)
  | code language rt =>
    exact ne_docSeparator_of_head _ '`'
      (head_append _ "\n```" '`'
        (head_append _ (extractRichText rt) '`'
          (head_append _ "\n" '`' (head_append "```" language '`' rfl)))) (by decide)
  | table_row cells =>
    refine ne_docSeparator_of_no_newline _ (intercalate_not_mem " | " _ (by decide) ?_)
    intro a ha
    obtain ⟨cell, hcell, rfl⟩ := List.mem_map.mp ha
    intro hmem
    obtain ⟨s, hs, hcs⟩ := mem_extractRichText_data hmem
    refine h s ?_ hcs
    simp only [blockRichSpans]
    exact List.mem_flatten.mpr ⟨cell, hcell, hs⟩
  | divider =>
    simp only [renderBlockText]
    decide
  | other =>
    simp only [renderBlockText]
    decide

/-- C2 (witness): the divider block, whose span list is empty, renders to
`"---"`, which differs from the document separator. -/
theorem renderBlockText_ne_docSeparator_witness :
    renderBlockText { id := "blk2", has_children := false, kind := BlockKind.divider } ≠
      docSeparator :=
  renderBlockText_ne_docSeparator _ (by decide)

/-- C5: on an empty document list the synthesizer returns the fixed
"no relevant information found" sentinel and performs zero model calls. -/
theorem generateAnswer_empty_docs_sentinel (complete : String → String → ModelResponse)
    (query : String) :
    generateAnswer complete query [] = (noInfoMessage, 0) := rfl

/-- C6: with a scope identifier configured, a full page whose parent is a
database is kept by the scope filter iff it was among the results and the
two identifiers are equal after hyphen-stripping normalization, and a
candidate without a database parent is always excluded. -/
theorem scopeFiltered_normalized_decision (dbId : String) (results : List SearchResult)
    (page : PageResult) :
    (∀ pid, page.parent = Parent.database pid →
      (SearchResult.fullPage page ∈ scopeFiltered (some dbId) results ↔
        SearchResult.fullPage page ∈ results ∧ normalizeId pid = normalizeId dbId)) ∧
    ((∀ pid, page.parent ≠ Parent.database pid) →
      SearchResult.fullPage page ∉ scopeFiltered (some dbId) results) := by
  constructor
  · intro pid hpid
    simp [scopeFiltered, List.mem_filter, hpid]
  · intro hnot hmem
    simp only [scopeFiltered, List.mem_filter] at hmem
    obtain ⟨-, hp⟩ := hmem
    cases hpar : page.parent with
    | database pid => exact hnot pid hpar
    | page pgid => simp at hp
    | workspace => simp at hp

/-- Concrete page whose parent database id differs from the configured one
only by a hyphen. -/
def page6 : PageResult :=
  { id := "p6", url := "u6", properties := [], parent := Parent.database "abc-123" }

/-- C6 (witness): the page with parent database id "abc-123" passes the
filter configured with "abc123". -/
theorem scopeFiltered_normalized_decision_witness :
    SearchResult.fullPage page6 ∈ scopeFiltered (some "abc123") [SearchResult.fullPage page6] :=
  ((scopeFiltered_normalized_decision "abc123" [SearchResult.fullPage page6] page6).1
    "abc-123" rfl).mpr ⟨by decide, by decide⟩

/-- C9: scenario C — a paragraph "Hello" with a nested bulleted item
"World" flattens from depth 0 to `"Hello\n• World"`. -/
theorem extractBlockContent_scenarioC :
    extractBlockContent store0 "root" 0 = Except.ok "Hello\n• World" := by
  simp [extractBlockContent, blockLines, store0, jsTrim, extractRichText, renderBlockText]
  decide

/-! ## The selector loop: characterization, failure isolation, cap/order -/

/-- The rendering one search result contributes to the selector's output:
`none` when the result is not a full page, when its candidate processing
threw, or when its flattened content is whitespace-only. -/
def candidateRendering (store : FetchStore) (r : SearchResult) : Option NotionPage :=
  match r with
  | SearchResult.fullPage page =>
    match tryProcess store page with
    | Except.ok (some p) => some p
    | _ => none
  | SearchResult.incomplete => none

/-- The id of a full-page search result. -/
def candidateId (r : SearchResult) : Option String :=
  match r with
  | SearchResult.fullPage p => some p.id
  | SearchResult.incomplete => none

theorem searchLoop_eq_filterMap (store : FetchStore) (results : List SearchResult) :
    searchLoop store results = results.filterMap (candidateRendering store) := by
  induction results with
  | nil => rfl
  | cons r rest ih =>
    cases r with
    | incomplete => simp [searchLoop, candidateRendering, List.filterMap_cons, ih]
    | fullPage page =>
      cases htp : tryProcess store page with
      | error e => simp [searchLoop, candidateRendering, htp, List.filterMap_cons, ih]
      | ok o =>
        cases o with
        | none => simp [searchLoop, candidateRendering, htp, List.filterMap_cons, ih]
        | some p => simp [searchLoop, candidateRendering, htp, List.filterMap_cons, ih]

theorem tryProcess_id (store : FetchStore) (page : PageResult) (np : NotionPage)
    (h : tryProcess store page = Except.ok (some np)) : np.id = page.id := by
  rw [tryProcess] at h
  cases hc : extractBlockContent store page.id 0 with
  | error e => rw [hc] at h; cases h
  | ok content =>
    simp only [hc] at h
    by_cases ht : jsTrim content = ""
    · rw [if_pos ht] at h
      cases Except.ok.inj h
    · rw [if_neg ht] at h
      have h2 := Option.some.inj (Except.ok.inj h)
      rw [← h2]

/-- C4: per-candidate failure isolation in the selector loop.  A candidate
whose processing throws contributes nothing while the candidates before and
after it are processed normally, and in general the loop's output is
exactly the filter-mapped renderings of the successfully processed
candidates — no exception escapes. -/
theorem searchLoop_isolates_failures (store : FetchStore) (pre post : List SearchResult)
    (page : PageResult) (e : String) (h : tryProcess store page = Except.error e) :
    searchLoop store (pre ++ SearchResult.fullPage page :: post) =
      searchLoop store pre ++ searchLoop store post ∧
    ∀ results, searchLoop store results = results.filterMap (candidateRendering store) := by
  refine ⟨?_, searchLoop_eq_filterMap store⟩
  rw [searchLoop_eq_filterMap, searchLoop_eq_filterMap, searchLoop_eq_filterMap,
    List.filterMap_append, List.filterMap_cons]
  simp [candidateRendering, h]

/-- Scenario-F store: fetching the children of page "bad" throws, while
page "good" flattens normally. -/
def storeF : FetchStore := fun id =>
  if id = "bad" then Except.error "network error"
  else if id = "good" then
    Except.ok [{ id := "g1", has_children := false,
                 kind := BlockKind.paragraph [{ plain_text := "ok" }] }]
  else Except.ok []

/-- The page whose block fetch throws. -/
def pageBad : PageResult :=
  { id := "bad", url := "ub", properties := [], parent := Parent.workspace }

/-- The page whose block fetch succeeds. -/
def pageGood : PageResult :=
  { id := "good", url := "ug", properties := [], parent := Parent.workspace }

/-- C4 (witness): scenario F — the first candidate's fetch throws, the
second succeeds; the output holds exactly the second candidate's
rendering. -/
theorem searchLoop_isolates_failures_witness :
    searchLoop storeF [SearchResult.fullPage pageBad, SearchResult.fullPage pageGood] =
      [{ id := "good", title := "Sin título", url := "ug", content := "ok" }] := by
  have hE : tryProcess storeF pageBad = Except.error "network error" := by
    simp [tryProcess, extractBlockContent, blockLines, storeF, pageBad]
  have h := (searchLoop_isolates_failures storeF [] [SearchResult.fullPage pageGood] pageBad
    "network error" hE).1
  rw [List.nil_append] at h
  rw [h]
  have hcg : extractBlockContent storeF "good" 0 = Except.ok "ok" := by
    simp [extractBlockContent, blockLines, storeF, jsTrim, extractRichText, renderBlockText]
    decide
  have hG : tryProcess storeF pageGood =
      Except.ok (some { id := "good", title := "Sin título", url := "ug", content := "ok" }) := by
    rw [tryProcess]
    simp only [pageGood, hcg]
    rw [if_neg (by decide : ¬ jsTrim "ok" = "")]
    rfl
  simp [searchLoop, hG]

theorem searchLoop_ids_sublist (store : FetchStore) (results : List SearchResult) :
    ((searchLoop store results).map NotionPage.id).Sublist (results.filterMap candidateId) := by
  induction results with
  | nil => simp [searchLoop]
  | cons r rest ih =>
    cases r with
    | incomplete => simpa [searchLoop, candidateId, List.filterMap_cons] using ih
    | fullPage page =>
      cases htp : tryProcess store page with
      | error e =>
        simp only [searchLoop, htp, candidateId, List.filterMap_cons]
        exact ih.cons _
      | ok o =>
        cases o with
        | none =>
          simp only [searchLoop, htp, candidateId, List.filterMap_cons]
          exact ih.cons _
        | some p =>
          simp only [searchLoop, htp, candidateId, List.filterMap_cons, List.map_cons]
          rw [tryProcess_id store page p htp]
          exact ih.cons₂ _

/-- C8: the selector returns at most 5 documents, and their ids form an
order-preserving subsequence of the ids of the first 5 post-filter
candidates (no re-ranking). -/
theorem searchNotion_cap_and_order (databaseId : Option String) (store : FetchStore)
    (results : List SearchResult) :
    (searchNotion databaseId store results).length ≤ 5 ∧
    ((searchNotion databaseId store results).map NotionPage.id).Sublist
      (((scopeFiltered databaseId results).take 5).filterMap candidateId) := by
  constructor
  · rw [searchNotion, searchLoop_eq_filterMap]
    exact le_trans (List.length_filterMap_le _ _) (List.length_take_le _ _)
  · rw [searchNotion]
    exact searchLoop_ids_sublist store _

/-! ## C10: title extraction and retention with an empty title property -/

/-- C10: the default title "Sin título" is produced only when the page has
no title-typed property at all; a title-typed property with an empty
rich-text array yields the empty-string title, and such a page is still
retained (with its empty title) whenever its flattened content has
non-empty trim. -/
theorem extractPageTitle_empty_title_property (page : PageResult) :
    (page.properties.find? isTitleProp = some (PageProperty.title []) →
      extractPageTitle page = "") ∧
    (page.properties.find? isTitleProp = none → extractPageTitle page = "Sin título") ∧
    (∀ store rest c, page.properties.find? isTitleProp = some (PageProperty.title []) →
      extractBlockContent store page.id 0 = Except.ok c → jsTrim c ≠ "" →
      searchLoop store (SearchResult.fullPage page :: rest) =
        { id := page.id, title := "", url := page.url, content := jsSlice c 3000 } ::
          searchLoop store rest) := by
  refine ⟨?_, ?_, ?_⟩
  · intro h
    rw [extractPageTitle, h]
    rfl
  · intro h
    rw [extractPageTitle, h]
  · intro store rest c ht hc hne
    have htitle : extractPageTitle page = "" := by
      rw [extractPageTitle, ht]
      rfl
    simp [searchLoop, tryProcess, hc, hne, htitle]

/-- A page carrying a title-typed property whose rich-text array is empty. -/
def page10 : PageResult :=
  { id := "p10", url := "u10", properties := [PageProperty.title []],
    parent := Parent.workspace }

/-- Store giving page10 one paragraph "Body". -/
def store10 : FetchStore := fun _ =>
  Except.ok [{ id := "t1", has_children := false,
               kind := BlockKind.paragraph [{ plain_text := "Body" }] }]

/-- C10 (witness): page10 is retained with the empty-string title. -/
theorem extractPageTitle_empty_title_property_witness :
    searchLoop store10 [SearchResult.fullPage page10] =
      [{ id := "p10", title := "", url := "u10", content := "Body" }] := by
  have hc : extractBlockContent store10 "p10" 0 = Except.ok "Body" := by
    simp [extractBlockContent, blockLines, store10, jsTrim, extractRichText, renderBlockText]
    decide
  have h := (extractPageTitle_empty_title_property page10).2.2 store10 [] "Body" rfl hc
    (by decide)
  rw [h]
  simp [searchLoop, page10]
  decide

/-! ## C3: the empty-content drop happens before truncation -/

/-- C3 (amended): the selector drops a candidate iff its flattened,
pre-truncation text trims to empty; a retained candidate's stored text is
the 3000-character truncation of that flattened text (so the stored text
itself can still be whitespace-only). -/
theorem searchLoop_filters_pretruncation_text (store : FetchStore) (page : PageResult)
    (rest : List SearchResult) (c : String)
    (hc : extractBlockContent store page.id 0 = Except.ok c) :
    (jsTrim c = "" →
      searchLoop store (SearchResult.fullPage page :: rest) = searchLoop store rest) ∧
    (jsTrim c ≠ "" →
      searchLoop store (SearchResult.fullPage page :: rest) =
        { id := page.id, title := extractPageTitle page, url := page.url,
          content := jsSlice c 3000 } :: searchLoop store rest) := by
  constructor
  · intro h
    simp [searchLoop, tryProcess, hc, h]
  · intro h
    simp [searchLoop, tryProcess, hc, h]

/-- A page whose only block is whitespace-only text. -/
def pageWS : PageResult :=
  { id := "pws", url := "uw", properties := [], parent := Parent.workspace }

/-- Store giving pageWS a single paragraph of three spaces. -/
def storeWS : FetchStore := fun _ =>
  Except.ok [{ id := "w1", has_children := false,
               kind := BlockKind.paragraph [{ plain_text := "   " }] }]

/-- C3 (witness): the whitespace-only candidate is silently dropped. -/
theorem searchLoop_filters_pretruncation_text_witness :
    searchLoop storeWS [SearchResult.fullPage pageWS] = [] := by
  have hc : extractBlockContent storeWS "pws" 0 = Except.ok "" := by
    simp [extractBlockContent, blockLines, storeWS, jsTrim, extractRichText, renderBlockText]
    rfl
  have h := (searchLoop_filters_pretruncation_text storeWS pageWS [] "" hc).1 (by decide)
  rw [h]
  rfl

/-- `String.join` of a single string is that string. -/
theorem join_singleton (s : String) : String.join [s] = s := by
  apply String.ext
  simp [join_data]

/-- `String.intercalate` of a single string is that string. -/
theorem intercalate_singleton (sep s : String) : String.intercalate sep [s] = s := by
  rw [String.intercalate, String.intercalate.go]

theorem dropWhile_replicate_append {α : Type} (p : α → Bool) (a : α) (h : p a = true) :
    ∀ (n : Nat) (l : List α), List.dropWhile p (List.replicate n a ++ l) = List.dropWhile p l := by
  intro n
  induction n with
  | zero => intro l; simp
  | succ m ih => intro l; simp [List.replicate_succ, List.dropWhile_cons, h, ih]

theorem extract_ok_of_blockLines (store : FetchStore) (blockId : String) (depth : Nat)
    (blocks : List Block) (lines : List String) (hd : ¬ depth > 3)
    (hs : store blockId = Except.ok blocks)
    (hb : blockLines store blocks depth = Except.ok lines) :
    extractBlockContent store blockId depth =
      Except.ok (String.intercalate "\n" (lines.filter (fun l => l != ""))) := by
  rw [extractBlockContent, if_neg hd]
  simp only [hs, hb]

theorem blockLines_single_no_children (store : FetchStore) (b : Block) (depth : Nat)
    (hb : b.has_children = false) (hne : jsTrim (renderBlockText b) ≠ "") :
    blockLines store [b] depth = Except.ok [renderBlockText b] := by
  simp [blockLines, hb, hne]

/-- Flattened content of 3000 spaces followed by one letter: its trim is
non-empty, but the trim of its 3000-character truncation is empty. -/
def bigContent : String := String.mk (List.replicate 3000 ' ') ++ "x"

/-- The page carrying `bigContent`. -/
def pageBig : PageResult :=
  { id := "pbig", url := "ubig", properties := [], parent := Parent.workspace }

/-- The single oversized paragraph block. -/
def bigBlock : Block :=
  { id := "big1", has_children := false,
    kind := BlockKind.paragraph [{ plain_text := bigContent }] }

/-- Store giving pageBig the single paragraph rendering to `bigContent`. -/
def storeBig : FetchStore := fun _ => Except.ok [bigBlock]

theorem bigContent_data : bigContent.data = List.replicate 3000 ' ' ++ ['x'] := by
  rw [bigContent, String.data_append]

theorem jsTrim_bigContent : jsTrim bigContent = "x" := by
  rw [jsTrim, bigContent_data,
    dropWhile_replicate_append Char.isWhitespace ' ' (by decide) 3000 ['x']]
  decide

theorem jsSlice_bigContent : jsSlice bigContent 3000 = String.mk (List.replicate 3000 ' ') := by
  rw [jsSlice, bigContent_data, List.take_left' (List.length_replicate 3000 ' ')]

theorem jsTrim_spaces : jsTrim (String.mk (List.replicate 3000 ' ')) = "" := by
  have h2 := dropWhile_replicate_append Char.isWhitespace ' ' (by decide) 3000
    ([] : List Char)
  rw [List.append_nil] at h2
  rw [List.dropWhile_nil] at h2
  show String.mk (((List.dropWhile Char.isWhitespace
    (List.replicate 3000 ' ')).reverse.dropWhile Char.isWhitespace).reverse) = ""
  rw [h2]
  decide

theorem bigContent_ne_empty : bigContent ≠ "" := by
  intro hEq
  have hdd := congrArg String.data hEq
  rw [bigContent_data] at hdd
  have hnil : ("" : String).data = [] := rfl
  rw [hnil] at hdd
  exact absurd (List.append_eq_nil.mp hdd).2 (by decide)

/-- C3 (counterexample): the selector's output can contain a document whose
stored text is whitespace-only — the empty-content check runs on the
pre-truncation flattened text, and truncation to 3000 characters can leave
only whitespace. -/
theorem searchLoop_retains_whitespace_after_truncation :
    (searchNotion none storeBig [SearchResult.fullPage pageBig]).map
      (fun p => jsTrim p.content) = [""] := by
  have hren : renderBlockText bigBlock = bigContent := by
    simp [renderBlockText, bigBlock, extractRichText, join_singleton]
  have hbl : blockLines storeBig [bigBlock] 0 = Except.ok [bigContent] := by
    have h := blockLines_single_no_children storeBig bigBlock 0 rfl
      (by rw [hren, jsTrim_bigContent]; decide)
    rw [hren] at h
    exact h
  have hfil : [bigContent].filter (fun l => l != "") = [bigContent] := by
    simp [List.filter_cons, bne_iff_ne, bigContent_ne_empty]
  have hc : extractBlockContent storeBig "pbig" 0 = Except.ok bigContent := by
    rw [extract_ok_of_blockLines storeBig "pbig" 0 [bigBlock] [bigContent]
      (by decide) rfl hbl, hfil, intercalate_singleton]
  have hne : jsTrim bigContent ≠ "" := by
    rw [jsTrim_bigContent]
    decide
  have h2 : searchNotion none storeBig [SearchResult.fullPage pageBig] =
      [{ id := "pbig", title := "Sin título", url := "ubig",
         content := jsSlice bigContent 3000 }] := by
    rw [searchNotion]
    show searchLoop storeBig ((scopeFiltered none [SearchResult.fullPage pageBig]).take 5) = _
    rw [show (scopeFiltered none [SearchResult.fullPage pageBig]).take 5 =
      [SearchResult.fullPage pageBig] from rfl]
    simp [searchLoop, tryProcess, hc, hne, extractPageTitle, pageBig]
  rw [h2]
  rw [List.map_cons, List.map_nil]
  rw [jsSlice_bigContent, jsTrim_spaces]

/-! ## C7: the recursion is bounded — fetch counts -/

theorem fetchCountBlocks_depth_ge_two (store : FetchStore) (blocks : List Block)
    (depth : Nat) (h : 2 ≤ depth) : fetchCountBlocks store blocks depth = 0 := by
  induction blocks with
  | nil => rw [fetchCountBlocks.eq_1]
  | cons b rest ih =>
    rw [fetchCountBlocks.eq_2, if_neg (fun hh => absurd hh.2 (by omega))]
    exact ih

theorem fetchCount_depth_ge_two (store : FetchStore) (blockId : String) (depth : Nat)
    (h : 2 ≤ depth) : fetchCount store blockId depth ≤ 1 := by
  rw [fetchCount.eq_def]
  split_ifs
  · exact Nat.zero_le 1
  · cases hs : store blockId with
    | error e => exact le_refl 1
    | ok results =>
      show 1 + fetchCountBlocks store results depth ≤ 1
      rw [fetchCountBlocks_depth_ge_two store results depth h]

theorem fetchCountBlocks_le (store : FetchStore) (blocks : List Block) (depth : Nat)
    (k : Nat) (hk : ∀ id, fetchCount store id (depth + 1) ≤ k) :
    fetchCountBlocks store blocks depth ≤ blocks.length * k := by
  induction blocks with
  | nil => rw [fetchCountBlocks.eq_1]; exact Nat.zero_le _
  | cons b rest ih =>
    rw [fetchCountBlocks.eq_2]
    have hmul : (rest.length + 1) * k = rest.length * k + k := Nat.succ_mul rest.length k
    split_ifs with hcond
    · cases hEx : extractBlockContent store b.id (depth + 1) with
      | error e =>
        show fetchCount store b.id (depth + 1) + 0 ≤ (b :: rest).length * k
        have h1 := hk b.id
        simp only [List.length_cons]
        omega
      | ok c =>
        show fetchCount store b.id (depth + 1) + fetchCountBlocks store rest depth ≤
          (b :: rest).length * k
        have h1 := hk b.id
        simp only [List.length_cons]
        omega
    · simp only [List.length_cons]
      have := ih
      omega

/-- C7: the number of block-children fetches performed by the flattener is
finite and bounded for every store response shape: when every fetched page
of children holds at most 50 blocks (the requested `page_size`), a flatten
from depth 0 performs at most `1 + 50 + 50 * 50 = 2551` fetches — the
recursion is stopped by the depth counter alone, with no cycle detection,
so even cyclic stores stay within the bound. -/
theorem fetchCount_bounded (store : FetchStore) (blockId : String)
    (h50 : ∀ id bs, store id = Except.ok bs → bs.length ≤ 50) :
    fetchCount store blockId 0 ≤ 2551 := by
  have h2 : ∀ id, fetchCount store id 2 ≤ 1 :=
    fun id => fetchCount_depth_ge_two store id 2 (le_refl 2)
  have h1 : ∀ id, fetchCount store id 1 ≤ 51 := by
    intro id
    rw [fetchCount.eq_def]
    split_ifs
    · exact Nat.zero_le _
    · cases hs : store id with
      | error e => exact (by omega : (1 : Nat) ≤ 51)
      | ok bs =>
        show 1 + fetchCountBlocks store bs 1 ≤ 51
        have hb := fetchCountBlocks_le store bs 1 1 h2
        have hl := h50 id bs hs
        omega
  rw [fetchCount.eq_def]
  split_ifs
  · exact Nat.zero_le _
  · cases hs : store blockId with
    | error e => exact (by omega : (1 : Nat) ≤ 2551)
    | ok bs =>
      show 1 + fetchCountBlocks store bs 0 ≤ 2551
      have hb := fetchCountBlocks_le store bs 0 51 h1
      have hl := h50 blockId bs hs
      have hmul : bs.length * 51 ≤ 50 * 51 := Nat.mul_le_mul_right 51 hl
      omega

/-- C7 (witness): the bound instantiated on the scenario-C store. -/
theorem fetchCount_bounded_witness :
    (∀ id bs, store0 id = Except.ok bs → bs.length ≤ 50) ∧
    fetchCount store0 "root" 0 ≤ 2551 := by
  have h : ∀ id bs, store0 id = Except.ok bs → bs.length ≤ 50 := by
    intro id bs hbs
    simp only [store0] at hbs
    split_ifs at hbs <;> (injection hbs with h'; subst h'; decide)
  exact ⟨h, fetchCount_bounded store0 "root" h⟩
